import Mathlib

/-!
Verification of the deval operation runtime: shallow embedding of the
scripted-input queue, the sub-logger lifecycle, the operation base class
(`BaseOp.run`) and the chain executor, with theorems settling the spec's
claims about them.

Conventions of the embedding:
* JS mutable objects live in heaps (`Nat → _`) addressed by ids, so that
  "the stack holds the same objects" can be stated about ids exactly as
  JS reference equality.
* A JS `throw` is an `Except.error` carrying a `Thrown` (or a `String`
  where only `Error` objects can flow).
* `Date.now` is a `Nat` tick threaded through the state; its rendering to
  the `YYYY-MM-DD-…` / ISO forms is abstracted to `toString`, which keeps
  the only property the code relies on: distinct ticks render distinctly.
* Console output is an external effect and is not modelled.
-/

set_option maxHeartbeats 1000000

deriving instance DecidableEq for Except

namespace Deval

/-- A JS value that was thrown.  `errObj` is an `Error` instance carrying
its `message`; `otherVal` is any other thrown value, carrying its
`String(value)` rendering and its JS truthiness. -/
inductive Thrown where
  | errObj (message : String)
  | otherVal (repr : String) (truthy : Bool)
deriving DecidableEq, Repr

/-- `error instanceof Error ? error.message : String(error)` (BaseOp.run). -/
def jsErrorMessage : Thrown → String
  | .errObj m => m
  | .otherVal s _ => s

/-- `(error instanceof Error) ? error : error ? new Error(String(error)) : undefined`
(Logger instance `error` method). -/
def jsToErrorObj : Thrown → Option Thrown
  | .errObj m => some (.errObj m)
  | .otherVal s true => some (.errObj s)
  | .otherVal _ false => none

/-- `Outcome<T>` from the Ops base types: `{success:true, data}` or
`{success:false, error, details?}`.  Details, when present, are an
arbitrary JS value, represented by `Thrown`'s value forms. -/
inductive Outcome (T : Type) where
  | success (data : T)
  | failure (error : String) (details : Option Thrown)
deriving DecidableEq, Repr

/-! ### JS string primitives

Re-implemented over `List Char` so that every definition in this file
reduces inside the kernel; each mirrors the JS string method it is named
after. -/

/-- JS `String.prototype.trim`. -/
def trimJS (s : String) : String :=
  String.mk (((s.toList.dropWhile Char.isWhitespace).reverse.dropWhile
    Char.isWhitespace).reverse)

/-- ASCII lower-casing of one character, as JS `toLowerCase` acts on the
inputs this code compares against. -/
def lowerChar (c : Char) : Char :=
  if 'A' ≤ c ∧ c ≤ 'Z' then Char.ofNat (c.toNat + 32) else c

/-- JS `String.prototype.toLowerCase`. -/
def toLowerJS (s : String) : String :=
  String.mk (s.toList.map lowerChar)

/-- JS `String.prototype.startsWith`. -/
def startsWithJS (s pre : String) : Bool :=
  pre.toList.isPrefixOf s.toList

/-- JS `String.prototype.endsWith`. -/
def endsWithJS (s suffix : String) : Bool :=
  suffix.toList.reverse.isPrefixOf s.toList.reverse

/-- Drop the first `n` characters (JS `slice(n)`). -/
def dropJS (s : String) (n : Nat) : String :=
  String.mk (s.toList.drop n)

/-- Drop the last `n` characters (together with `dropJS`, JS
`slice(1, -1)`). -/
def dropRightJS (s : String) (n : Nat) : String :=
  String.mk (s.toList.take (s.toList.length - n))

def jsSplitGo (sep : Char) : List Char → String → List String
  | [], cur => [cur]
  | c :: rest, cur =>
    if c = sep then cur :: jsSplitGo sep rest "" else jsSplitGo sep rest (cur.push c)

/-- JS `String.prototype.split` with a one-character separator. -/
def jsSplit (sep : Char) (s : String) : List String :=
  jsSplitGo sep s.toList ""

/-! ## Scripted-input queue, Ops tree (`runtime/UserInputQueue.ts`, part_005) -/

/-- `UserInputType = 'select' | 'input' | 'toggle' | 'confirm'`. -/
inductive UserInputType where
  | select
  | input
  | toggle
  | confirm
deriving DecidableEq, Repr

/-- The closed confirmation enum `'yes' | 'no' | 'help'`. -/
inductive ConfirmValue where
  | yes
  | no
  | help
deriving DecidableEq, Repr

/-- `SimulatedUserInput`: a `{type, value}` pair with the kind-specific
payload type. -/
inductive SimulatedUserInput where
  | select (value : Int)
  | input (value : String)
  | toggle (value : Bool)
  | confirm (value : ConfirmValue)
deriving DecidableEq, Repr

def SimulatedUserInput.type : SimulatedUserInput → UserInputType
  | .select _ => .select
  | .input _ => .input
  | .toggle _ => .toggle
  | .confirm _ => .confirm

def UserInputType.name : UserInputType → String
  | .select => "select"
  | .input => "input"
  | .toggle => "toggle"
  | .confirm => "confirm"

/-- The character loop of `parseInputString` that splits the script on
commas while respecting single/double quotes (a quote preceded by a
backslash is literal).  `prev` is the previously seen character,
`quoteChar` the active quote character (`none` for the JS empty string). -/
def splitLoop : List Char → Option Char → Bool → Option Char → String → List String → List String
  | [], _, _, _, current, parts =>
    if current ≠ "" then parts ++ [trimJS current] else parts
  | c :: rest, prev, inQuotes, quoteChar, current, parts =>
    if (c = '"' ∨ c = '\'') ∧ prev ≠ some '\\' then
      if ¬ inQuotes then
        splitLoop rest (some c) true (some c) current parts
      else if some c = quoteChar then
        splitLoop rest (some c) false none current parts
      else
        splitLoop rest (some c) inQuotes quoteChar (current.push c) parts
    else if c = ',' ∧ ¬ inQuotes then
      splitLoop rest (some c) inQuotes quoteChar "" (parts ++ [trimJS current])
    else
      splitLoop rest (some c) inQuotes quoteChar (current.push c) parts

def splitRespectingQuotes (s : String) : List String :=
  splitLoop s.toList none false none "" []

/-- `part.indexOf(':')` followed by the two `substring` calls: the text
before the first colon and the text after it. -/
def breakAtColon : List Char → Option (List Char × List Char)
  | [] => none
  | c :: rest =>
    if c = ':' then some ([], rest)
    else
      match breakAtColon rest with
      | none => none
      | some (a, b) => some (c :: a, b)

/-- Accumulate the decimal value of the leading digit run; `none` when no
digit was seen (JS `NaN`). -/
def digitsVal : List Char → Option Nat → Option Nat
  | [], acc => acc
  | c :: rest, acc =>
    if c.isDigit then digitsVal rest (some ((acc.getD 0) * 10 + (c.toNat - '0'.toNat)))
    else acc

/-- JS `parseInt(s, 10)`: skip leading whitespace, optional sign, longest
digit prefix; `none` models `NaN`. -/
def parseIntJS (s : String) : Option Int :=
  match s.toList.dropWhile Char.isWhitespace with
  | '-' :: rest => (digitsVal rest none).map (fun n => -(n : Int))
  | '+' :: rest => (digitsVal rest none).map (fun n => (n : Int))
  | l => (digitsVal l none).map (fun n => (n : Int))

/-- The `input` branch: `value.slice(1, -1)` when the value both starts
and ends with the same quote character. -/
def stripMatchingQuotes (value : String) : String :=
  if (startsWithJS value "\"" ∧ endsWithJS value "\"")
      ∨ (startsWithJS value "\'" ∧ endsWithJS value "\'") then
    dropRightJS (dropJS value 1) 1
  else value

/-- The `switch (type)` of `parseInputString` for one `kind:value` item.
`ok none` is the JS `continue`/`break` without a push; `error` is a
thrown construction failure. -/
def parseScriptPart (part : String) : Except String (Option SimulatedUserInput) :=
  match breakAtColon part.toList with
  | none => .ok none
  | some (before, after) =>
    let ty := trimJS (String.mk before)
    let valueStr := trimJS (String.mk after)
    if ty = "select" then
      match parseIntJS valueStr with
      | some num => .ok (some (.select num))
      | none => .ok none
    else if ty = "input" then
      .ok (some (.input (stripMatchingQuotes valueStr)))
    else if ty = "toggle" then
      .ok (some (.toggle (toLowerJS valueStr == "yes" || toLowerJS valueStr == "true"
        || toLowerJS valueStr == "on")))
    else if ty = "confirm" then
      if valueStr = "yes" then .ok (some (.confirm .yes))
      else if valueStr = "no" then .ok (some (.confirm .no))
      else if valueStr = "help" then .ok (some (.confirm .help))
      else .error ("UserInputQueue: Invalid confirm value: " ++ valueStr)
    else
      .error ("UserInputQueue: Invalid input type: " ++ ty)

def parseScriptLoop : List String → List SimulatedUserInput → Except String (List SimulatedUserInput)
  | [], acc => .ok acc
  | p :: rest, acc =>
    match parseScriptPart p with
    | .error e => .error e
    | .ok none => parseScriptLoop rest acc
    | .ok (some a) => parseScriptLoop rest (acc ++ [a])

/-- `UserInputQueue.parseInputString` (part_005): split the script,
then parse each item in order, throwing on a malformed kind or a
malformed confirmation value. -/
def parseInputString (s : String) : Except String (List SimulatedUserInput) :=
  parseScriptLoop (splitRespectingQuotes s) []

structure UserInputQueue where
  queue : List SimulatedUserInput
  used : List SimulatedUserInput
  originalQueue : List SimulatedUserInput
  interactionCount : Nat
deriving DecidableEq, Repr

/-- The constructor with a script string: parse once, remember the
original sequence. -/
def UserInputQueue.ofScript (inputString : String) : Except String UserInputQueue :=
  match parseInputString inputString with
  | .error e => .error e
  | .ok q => .ok ⟨q, [], q, 0⟩

/-- `getNext(type)` (part_005): shift the head, record it as used, count
the interaction, then throw on a kind mismatch — the mutation happens
before the check. -/
def UserInputQueue.getNext (ty : UserInputType) (q : UserInputQueue) :
    Except String (Option SimulatedUserInput) × UserInputQueue :=
  match q.queue with
  | [] => (.ok none, q)
  | queued :: rest =>
    let q1 : UserInputQueue :=
      { q with
        queue := rest
        used := q.used ++ [queued]
        interactionCount := q.interactionCount + 1 }
    if queued.type = ty then (.ok (some queued), q1)
    else (.error ("Expected " ++ ty.name ++ " input, but got " ++ queued.type.name), q1)

def UserInputQueue.hasMore (q : UserInputQueue) : Bool :=
  q.queue.length > 0

/-- Drain the queue by requesting, at every step, exactly the kind the
head declares.  Fuel is the queue length, which always suffices. -/
def consumeAllFuel : Nat → UserInputQueue → List SimulatedUserInput
  | 0, _ => []
  | fuel + 1, q =>
    match q.queue with
    | [] => []
    | e :: _ =>
      match UserInputQueue.getNext e.type q with
      | (.ok (some v), q1) => v :: consumeAllFuel fuel q1
      | _ => []

def consumeAll (q : UserInputQueue) : List SimulatedUserInput :=
  consumeAllFuel q.queue.length q

/-! ## Scripted-input queue, legacy tree (`src/runtime/UserInputQueue.ts`) -/

namespace RT

/-- The legacy `UserInputType` enum, which additionally has `checkbox`. -/
inductive UserInputType where
  | select
  | input
  | toggle
  | confirm
  | checkbox
deriving DecidableEq, Repr

/-- Legacy `UserInput.value`: `string | number | boolean | string[]`. -/
inductive Value where
  | str (s : String)
  | num (n : Int)
  | bool (b : Bool)
  | strs (l : List String)
deriving DecidableEq, Repr

structure UserInput where
  type : UserInputType
  value : Value
deriving DecidableEq, Repr

/-- Strip one pair of matching quotes from a checkbox array element. -/
def stripQuotesTrim (v : String) : String :=
  let trimmed := trimJS v
  if (startsWithJS trimmed "\"" ∧ endsWithJS trimmed "\"")
      ∨ (startsWithJS trimmed "\'" ∧ endsWithJS trimmed "\'") then
    dropRightJS (dropJS trimmed 1) 1
  else trimmed

/-- The legacy `switch (type)`: no `default` case, so an unrecognized
kind is skipped silently, and `confirm` coerces its value to a boolean
(`yes`/`y`/`true`) instead of validating it. -/
def parseScriptPart (part : String) : Option UserInput :=
  match breakAtColon part.toList with
  | none => none
  | some (before, after) =>
    let ty := trimJS (String.mk before)
    let valueStr := trimJS (String.mk after)
    if ty = "select" then
      match parseIntJS valueStr with
      | some num => some ⟨.select, .num num⟩
      | none => none
    else if ty = "input" then
      some ⟨.input, .str (stripMatchingQuotes valueStr)⟩
    else if ty = "toggle" then
      some ⟨.toggle, .bool (toLowerJS valueStr == "yes" || toLowerJS valueStr == "true"
        || toLowerJS valueStr == "on")⟩
    else if ty = "confirm" then
      some ⟨.confirm, .bool (toLowerJS valueStr == "yes" || toLowerJS valueStr == "y"
        || toLowerJS valueStr == "true")⟩
    else if ty = "checkbox" then
      if startsWithJS valueStr "[" ∧ endsWithJS valueStr "]" then
        let arrayContent := dropRightJS (dropJS valueStr 1) 1
        some ⟨.checkbox, .strs ((jsSplit ',' arrayContent).map stripQuotesTrim)⟩
      else none
    else none

/-- Legacy `parseInputString`: same quote-respecting split, then the
lenient per-item switch; construction never throws. -/
def parseInputString (s : String) : List UserInput :=
  (splitRespectingQuotes s).filterMap parseScriptPart

structure UserInputQueue where
  queue : List UserInput
  originalQueue : List UserInput
  interactionCount : Nat
deriving DecidableEq, Repr

def UserInputQueue.ofScript (inputString : String) : UserInputQueue :=
  let q := parseInputString inputString
  ⟨q, q, 0⟩

/-- Legacy `getNext(type)`: `findIndex` over the whole queue for the
first entry of the requested kind, `splice` it out and return it;
`undefined` when there is none.  It never throws and is not FIFO across
kinds. -/
def UserInputQueue.getNext (ty : UserInputType) (q : UserInputQueue) :
    Option UserInput × UserInputQueue :=
  let q1 : UserInputQueue := { q with interactionCount := q.interactionCount + 1 }
  match q1.queue.findIdx? (fun i => i.type == ty) with
  | some index => (q1.queue.get? index, { q1 with queue := q1.queue.eraseIdx index })
  | none => (none, q1)

end RT

/-! ## Logger (part_012, `logger/logger.ts`) -/

/-- `LogLevel` from the logger types. -/
inductive LogLevel where
  | debug
  | info
  | warning
  | error
  | completedFile
  | completedGroup
  | apiRequest
  | apiResponse
deriving DecidableEq, Repr

def LogLevel.levelName : LogLevel → String
  | .debug => "DEBUG"
  | .info => "INFO"
  | .warning => "WARNING"
  | .error => "ERROR"
  | .completedFile => "COMPLETED_FILE"
  | .completedGroup => "COMPLETED_GROUP"
  | .apiRequest => "API_REQUEST"
  | .apiResponse => "API_RESPONSE"

/-- `MULTI_LOG_LEVEL_MAP.DEFAULT`, the initial value of the static
`enabledLevels` set. -/
def defaultEnabledLevels : LogLevel → Bool
  | .info => true
  | .warning => true
  | .error => true
  | .completedFile => true
  | .completedGroup => true
  | _ => false

/-- `LogEntry`.  `context` is carried opaquely as its JSON rendering;
`error`, when present, is the attached `Error` object. -/
structure LogEntry where
  timestamp : Nat
  level : LogLevel
  message : String
  context : Option String
  error : Option Thrown
deriving DecidableEq, Repr

/-- The instance fields of `Logger` (sub-logger mode). -/
structure LoggerState where
  operationName : String
  logs : List LogEntry
  startTime : Nat
  finalized : Bool
  isSubLogger : Bool
  partNumber : Nat
deriving DecidableEq, Repr

/-- `LoggerSuspensionMetadata`. -/
structure LoggerSuspensionMetadata where
  operationName : String
  partNumber : Nat
deriving DecidableEq, Repr

namespace Logger

/-- The `Logger(operationName)` constructor: empty buffer, sub-logger
mode, part 1.  (Registration with `SubLoggerManager` is handled by the
callers that track the registry.) -/
def new (operationName : String) (now : Nat) : LoggerState :=
  { operationName := operationName
    logs := []
    startTime := now
    finalized := false
    isSubLogger := true
    partNumber := 1 }

end Logger

/-- The core instance `log` method: drop the entry when its level is not
enabled, otherwise mirror to the console (external, unmodelled) and, in
sub-logger mode, throw when finalized or append to the buffer.  The
level filter runs before the finalized check. -/
def LoggerState.log (enabled : LogLevel → Bool) (now : Nat) (level : LogLevel)
    (message : String) (context : Option String) (error : Option Thrown)
    (lg : LoggerState) : Except Thrown LoggerState :=
  if ¬ enabled level then .ok lg
  else
    let fullEntry : LogEntry :=
      { timestamp := now, level := level, message := message,
        context := context, error := error }
    if lg.isSubLogger then
      if lg.finalized then .error (.errObj "Cannot log to finalized sub-logger")
      else .ok { lg with logs := lg.logs ++ [fullEntry] }
    else .ok lg

/-- A log file written by `writeNewFile`. -/
structure Artifact where
  filename : String
  content : String
deriving DecidableEq, Repr

/-- The file-system-facing state: the per-millisecond filename counters
of `formatter.ts` (keyed by the timestamp tick) and the files written so
far.  (The formatter's pruning of counter keys once the map exceeds 1000
entries is invisible under a monotonic clock and is not modelled.) -/
structure FileSys where
  counters : Nat → Nat
  artifacts : List Artifact

/-- `sanitizeForFilename`: replace characters outside
`[a-zA-Z0-9-_. ]` with underscores. -/
def sanitizeStep1 (c : Char) : Char :=
  if c.isAlphanum ∨ c = '-' ∨ c = '_' ∨ c = '.' ∨ c = ' ' then c else '_'

/-- Collapse runs of characters matching `p` into a single `rep`
(the `\s+` and `_+` replacements of `sanitizeForFilename`). -/
def collapseRuns (p : Char → Bool) (rep : Char) : Bool → List Char → List Char
  | _, [] => []
  | prevMatched, c :: rest =>
    if p c then
      if prevMatched then collapseRuns p rep true rest
      else rep :: collapseRuns p rep true rest
    else c :: collapseRuns p rep false rest

/-- The `/^_|_$/g` replacement: one leading and one trailing underscore
removed. -/
def trimOneUnderscore (l : List Char) : List Char :=
  let l1 := match l with
    | '_' :: rest => rest
    | other => other
  match l1.reverse with
  | '_' :: rest => rest.reverse
  | _ => l1

/-- `sanitizeForFilename` from `formatter.ts`. -/
def sanitizeForFilename (text : String) : String :=
  let step1 := text.toList.map sanitizeStep1
  let step2 := collapseRuns Char.isWhitespace '_' false step1
  let step3 := collapseRuns (fun c => c = '_') '_' false step2
  String.mk ((trimOneUnderscore step3).take 100)

/-- `generateLogFilename`: timestamp base, per-millisecond counter,
level, sanitized description and optional `.partN` suffix.  The
rendering of the timestamp tick to `YYYY-MM-DD-HH-MM-SS-mmm` is
abstracted to `toString`. -/
def generateLogFilename (fs : FileSys) (timestamp : Nat) (level : LogLevel)
    (message : String) (partNumber : Option Nat) : String × FileSys :=
  let timestampBase := toString timestamp
  let counter := fs.counters timestamp + 1
  let fs1 : FileSys :=
    { fs with counters := fun t => if t = timestamp then counter else fs.counters t }
  let description := sanitizeForFilename message
  let partSfx := match partNumber with
    | some n => if n > 1 then ".part" ++ toString n else ""
    | none => ""
  (timestampBase ++ "-" ++ toString counter ++ "-" ++ level.levelName ++ "-"
    ++ description ++ partSfx ++ ".log", fs1)

/-- `\x1b\[[0-9;]*m`: characters following an escape that complete one
ANSI color sequence, or `none` when the pattern does not match. -/
def ansiTail (l : List Char) : Option (List Char) :=
  match l with
  | '[' :: rest =>
    match rest.dropWhile (fun c => c.isDigit || c = ';') with
    | 'm' :: tail => some tail
    | _ => none
  | _ => none

/-- `stripAnsiCodes` from `formatter.ts`. -/
def stripAnsi (l : List Char) : List Char :=
  match l with
  | [] => []
  | c :: rest =>
    if c = '\x1b' then
      match h : ansiTail rest with
      | some tail => stripAnsi tail
      | none => c :: stripAnsi rest
    else c :: stripAnsi rest
termination_by l.length
decreasing_by
  · -- a matched escape sequence consumes at least two characters
    simp only [ansiTail] at h
    split at h
    · rename_i rest2
      split at h
      · rename_i tail2 heq
        cases h
        have hlen : (List.dropWhile (fun ch => ch.isDigit || ch = ';') rest2).length
            ≤ rest2.length := by
          clear heq
          induction rest2 with
          | nil => simp [List.dropWhile]
          | cons d ds ih =>
            rw [List.dropWhile]
            split
            · exact Nat.le_succ_of_le ih
            · simp
        rw [heq] at hlen
        simp only [List.length_cons] at hlen ⊢
        omega
      · cases h
    · cases h
  · simp
  · simp

/-- Pad with spaces on the right (`padEnd`). -/
def padEnd (s : String) (n : Nat) : String :=
  s ++ String.mk (List.replicate (n - s.length) ' ')

/-- `formatSubLoggerLine`: one line per entry with ISO timestamp
(abstracted to `toString`), padded level, ANSI-stripped message, and
inline context and error when present. -/
def formatSubLoggerLine (entry : LogEntry) : String :=
  let timestamp := toString entry.timestamp
  let level := padEnd entry.level.levelName 15
  let cleanMessage := String.mk (stripAnsi entry.message.toList)
  let line := timestamp ++ " " ++ level ++ " " ++ cleanMessage
  let line2 := match entry.context with
    | some ctx => line ++ " | Context: " ++ ctx
    | none => line
  match entry.error with
  | some err => line2 ++ " | Error: " ++ jsErrorMessage err
  | none => line2

/-- `Logger.finalize`: no-op unless an unfinalized sub-logger; mark
finalized; with an empty buffer write nothing, otherwise write one
artifact named from the first entry's timestamp and the operation name,
prefixed by a continuation header when this is not part 1. -/
def LoggerState.finalize (lg : LoggerState) (fs : FileSys) : LoggerState × FileSys :=
  if ¬ lg.isSubLogger ∨ lg.finalized then (lg, fs)
  else
    let lg1 := { lg with finalized := true }
    match lg.logs with
    | [] => (lg1, fs)
    | firstEntry :: _ =>
      let (filename, fs1) := generateLogFilename fs firstEntry.timestamp
        firstEntry.level lg.operationName (some lg.partNumber)
      let lines := lg.logs.map formatSubLoggerLine
      let content :=
        if lg.partNumber > 1 then
          "[CONTINUED FROM PART " ++ toString (lg.partNumber - 1) ++ "]\n\n"
            ++ String.intercalate "\n" lines
        else String.intercalate "\n" lines
      (lg1, { fs1 with artifacts := fs1.artifacts ++ [⟨filename, content⟩] })

/-- `Logger.suspend`: throw on a non-sub-logger, otherwise finalize the
current part and return resumption metadata carrying the operation name
and the current part number. -/
def LoggerState.suspend (lg : LoggerState) (fs : FileSys) :
    Except Thrown ((LoggerState × FileSys) × LoggerSuspensionMetadata) :=
  if ¬ lg.isSubLogger then .error (.errObj "Cannot suspend a non-sub-logger")
  else
    let (lg1, fs1) := lg.finalize fs
    .ok ((lg1, fs1), ⟨lg.operationName, lg.partNumber⟩)

/-- `Logger.resumeFrom`: a fresh logger continuing the suspended one with
`partNumber = metadata.partNumber + 1`. -/
def Logger.resumeFrom (metadata : LoggerSuspensionMetadata) (now : Nat) : LoggerState :=
  { Logger.new metadata.operationName now with partNumber := metadata.partNumber + 1 }

/-! ## BaseOp (part_007, `ops/base/BaseOp.ts`)

JS objects are mutable and aliased, so `BaseOp` instances and `Logger`
instances live in heaps addressed by `Nat` ids; the global `OpStack`
holds op ids (JS object references), with the head of the list being the
END of the source array, i.e. the top of the stack. -/

/-- The per-instance fields of `BaseOp`. -/
structure OpRec where
  name : String
  logger : Option Nat
  usingParentLogger : Bool
  parentLoggerSuspended : Bool
  suspensionMetadata : Option LoggerSuspensionMetadata
deriving DecidableEq, Repr

/-- A freshly constructed `BaseOp`: the logger is created lazily. -/
def OpRec.fresh (name : String) : OpRec :=
  { name := name
    logger := none
    usingParentLogger := false
    parentLoggerSuspended := false
    suspensionMetadata := none }

/-- The global runtime state around a `BaseOp.run` call: the static
`OpStack`, the heaps of op instances and logger instances, the
`SubLoggerManager` registry, the static `enabledLevels`, the clock and
the file system. -/
structure OpState where
  stack : List Nat
  ops : Nat → OpRec
  loggers : Nat → LoggerState
  nextLoggerId : Nat
  registry : List Nat
  enabled : LogLevel → Bool
  clock : Nat
  fs : FileSys

/-- Pointwise heap update. -/
def updFun {α : Type} (f : Nat → α) (k : Nat) (v : α) : Nat → α :=
  fun n => if n = k then v else f n

/-- `BaseOp.parent`: the second-from-top stack entry, `null` when the
stack has at most one element. -/
def OpState.parent (st : OpState) : Option Nat :=
  match st.stack with
  | _ :: p :: _ => some p
  | _ => none

def OpState.setOp (st : OpState) (id : Nat) (r : OpRec) : OpState :=
  { st with ops := updFun st.ops id r }

def OpState.setLogger (st : OpState) (lid : Nat) (lg : LoggerState) : OpState :=
  { st with loggers := updFun st.loggers lid lg }

/-- `new Logger(name)`: allocate a fresh sub-logger and register it with
the `SubLoggerManager`. -/
def OpState.newLogger (st : OpState) (name : String) : Nat × OpState :=
  let lid := st.nextLoggerId
  (lid,
    { st with
      nextLoggerId := lid + 1
      loggers := updFun st.loggers lid (Logger.new name st.clock)
      registry := lid :: st.registry
      clock := st.clock + 1 })

/-- The `logger` getter of `BaseOp` for the op `id`: return the existing
logger, otherwise borrow the parent's logger when
`shouldUseParentLogger()` asks for it and the parent has one, otherwise
create an own logger.  `sup` is the (possibly overridden)
`shouldUseParentLogger` implementation, which may inspect the global
state (the default reads `BaseOp.parent`). -/
def OpState.getLoggerFor (st : OpState) (id : Nat) (sup : OpState → Bool) :
    Nat × OpState :=
  let r := st.ops id
  match r.logger with
  | some lid => (lid, st)
  | none =>
    match st.parent with
    | some pid =>
      if sup st then
        let st1 := st.setOp id { r with usingParentLogger := true }
        match (st1.ops pid).logger with
        | none =>
          let (lid, st2) := st1.newLogger r.name
          (lid, st2.setOp id { r with logger := some lid, usingParentLogger := false })
        | some plid => (plid, st1)
      else
        let (lid, st2) := st.newLogger r.name
        (lid, st2.setOp id { r with logger := some lid, usingParentLogger := false })
    | none =>
      let (lid, st2) := st.newLogger r.name
      (lid, st2.setOp id { r with logger := some lid, usingParentLogger := false })

/-- A call `logger.debug/info/error(...)` on the logger instance `lid`:
the instance `log` method against the global enabled levels, ticking the
clock when an entry is created. -/
def OpState.logTo (st : OpState) (lid : Nat) (level : LogLevel) (message : String)
    (err : Option Thrown) (ctx : Option String) : Except Thrown Unit × OpState :=
  if st.enabled level then
    match (st.loggers lid).log st.enabled st.clock level message ctx err with
    | .error e => (.error e, st)
    | .ok lg1 => (.ok (), { st.setLogger lid lg1 with clock := st.clock + 1 })
  else (.ok (), st)

/-- A `this.logger.X(...)` call of op `id`: the getter runs on every
use, then the instance log method. -/
def OpState.loggerCall (st : OpState) (id : Nat) (sup : OpState → Bool)
    (level : LogLevel) (message : String) (err : Option Thrown) (ctx : Option String) :
    Except Thrown Unit × OpState :=
  let (lid, st1) := st.getLoggerFor id sup
  st1.logTo lid level message err ctx

/-- `logger.finalize()` on instance `lid`, including the
`SubLoggerManager.unregister` that runs when the logger actually
finalizes. -/
def OpState.finalizeLogger (st : OpState) (lid : Nat) : OpState :=
  let lg := st.loggers lid
  let (lg1, fs1) := lg.finalize st.fs
  let registry1 :=
    if lg.isSubLogger && !lg.finalized then st.registry.erase lid else st.registry
  { st.setLogger lid lg1 with fs := fs1, registry := registry1 }

/-- `if (this._logger && !this._usingParentLogger) await this._logger.finalize()`. -/
def OpState.finalizeOwnLogger (st : OpState) (id : Nat) : OpState :=
  let r := st.ops id
  match r.logger with
  | some lid => if r.usingParentLogger then st else st.finalizeLogger lid
  | none => st

/-- `logger.suspend()` on instance `lid`: throw on a non-sub-logger,
otherwise finalize the current part (with its registry side effect) and
return the resumption metadata. -/
def OpState.suspendLogger (st : OpState) (lid : Nat) :
    Except Thrown LoggerSuspensionMetadata × OpState :=
  let lg := st.loggers lid
  if ¬ lg.isSubLogger then (.error (.errObj "Cannot suspend a non-sub-logger"), st)
  else (.ok ⟨lg.operationName, lg.partNumber⟩, st.finalizeLogger lid)

/-- `handleParentLoggerSuspension` of op `id`: when there is a parent,
this op will not borrow the parent's logger, and the parent owns an
active logger, suspend it, remember the metadata on `id` and clear the
parent's logger reference. -/
def OpState.handleParentLoggerSuspension (st : OpState) (id : Nat)
    (sup : OpState → Bool) : Except Thrown Unit × OpState :=
  match st.parent with
  | none => (.ok (), st)
  | some pid =>
    let pr := st.ops pid
    match pr.logger with
    | none => (.ok (), st)
    | some plid =>
      if !(sup st) && !pr.usingParentLogger then
        match st.suspendLogger plid with
        | (.error e, st1) => (.error e, st1)
        | (.ok md, st1) =>
          let st2 := st1.setOp id
            { st1.ops id with suspensionMetadata := some md, parentLoggerSuspended := true }
          let st3 := st2.setOp pid { st2.ops pid with logger := none }
          (.ok (), st3)
      else (.ok (), st)

/-- `handleParentLoggerResumption` of op `id` (runs in the `finally`
block, before the pop): when this op suspended its parent's logger,
construct `Logger.resumeFrom(metadata)` (registering it), point the
parent at it, and log the resumption notice to the fresh logger (which,
being freshly constructed, cannot be finalized, so that call cannot
throw). -/
def OpState.handleParentLoggerResumption (st : OpState) (id : Nat) : OpState :=
  let r := st.ops id
  if r.parentLoggerSuspended then
    match r.suspensionMetadata with
    | none => st
    | some md =>
      match st.parent with
      | none => st
      | some pid =>
        let lid := st.nextLoggerId
        let st1 : OpState :=
          { st with
            nextLoggerId := lid + 1
            loggers := updFun st.loggers lid (Logger.resumeFrom md st.clock)
            registry := lid :: st.registry
            clock := st.clock + 1 }
        let st2 := st1.setOp pid { st1.ops pid with logger := some lid }
        (st2.logTo lid .info "[RESUMING AFTER CHILD Op]" none none).2
  else st

/-- What a `performOp()` implementation does when it finishes: return an
`Outcome` or let an exception escape. -/
inductive PerformResult (T : Type) where
  | returns (result : Outcome T)
  | throws (e : Thrown)

/-- JS string interpolation of an outcome's `details` field. -/
def thrownInterp : Option Thrown → String
  | none => "undefined"
  | some (.errObj m) => "Error: " ++ m
  | some (.otherVal s _) => s

/-- `formatOutcomeForLogging` (part_007); `dataRepr` renders the data
the way JS template interpolation would. -/
def formatOutcomeForLogging {T : Type} (dataRepr : T → String) : Outcome T → String
  | .success d => "✅ \x7b success: true, data: " ++ dataRepr d ++ " \x7d"
  | .failure err details =>
    "❌ \x7b success: false, error: " ++ err ++ ", details: "
      ++ thrownInterp details ++ " \x7d"

namespace BaseOp

/-- Everything `run` does inside the `try` before calling `performOp`:
suspend the parent's logger when needed, then log the starting entry
through the getter. -/
def runTryPrelude (id : Nat) (sup : OpState → Bool) (st : OpState) :
    Except Thrown Unit × OpState :=
  match st.handleParentLoggerSuspension id sup with
  | (.error e, st1) => (.error e, st1)
  | (.ok _, st1) =>
    st1.loggerCall id sup .debug
      ("Starting Op " ++ toString id ++ ": " ++ (st1.ops id).name) none none

/-- The outcome-echo logging after `performOp` returns (still inside the
`try`): a debug or error entry, then the formatted outcome at debug. -/
def logOutcome {T : Type} (dataRepr : T → String) (id : Nat) (sup : OpState → Bool)
    (result : Outcome T) (st : OpState) : Except Thrown Unit × OpState :=
  let step1 :=
    match result with
    | .success _ =>
      st.loggerCall id sup .debug
        ("Op " ++ toString id ++ ": " ++ (st.ops id).name ++ " completed successfully")
        none none
    | .failure err _ =>
      st.loggerCall id sup .error
        ("Op " ++ toString id ++ ": " ++ (st.ops id).name ++ " failed")
        none (some ("error: " ++ err))
  match step1 with
  | (.error e, st1) => (.error e, st1)
  | (.ok _, st1) =>
    st1.loggerCall id sup .debug
      ("Op " ++ toString id ++ ": " ++ formatOutcomeForLogging dataRepr result)
      none none

/-- The whole `try` block of `run`: prelude, `performOp`, outcome
logging, own-logger finalization.  An `error` result is an exception
reaching the `catch`. -/
def runTry {T : Type} (dataRepr : T → String) (id : Nat) (sup : OpState → Bool)
    (perform : OpState → PerformResult T × OpState) (st : OpState) :
    Except Thrown (Outcome T) × OpState :=
  match runTryPrelude id sup st with
  | (.error e, st1) => (.error e, st1)
  | (.ok _, st1) =>
    match perform st1 with
    | (.throws e, st2) => (.error e, st2)
    | (.returns result, st2) =>
      match logOutcome dataRepr id sup result st2 with
      | (.error e, st3) => (.error e, st3)
      | (.ok _, st3) => (.ok result, st3.finalizeOwnLogger id)

/-- The `catch` block of `run`: log the unexpected error, finalize the
own logger, and convert the exception into a failure `Outcome` carrying
its message and the raw error as details.  (The logging call itself can
throw, in which case the exception escapes `run`.) -/
def runCatch (T : Type) (id : Nat) (sup : OpState → Bool) (e : Thrown)
    (st : OpState) : Except Thrown (Outcome T) × OpState :=
  let errorMessage := jsErrorMessage e
  match st.loggerCall id sup .error "Unexpected error in Op" (jsToErrorObj e) none with
  | (.error e2, st1) => (.error e2, st1)
  | (.ok _, st1) =>
    (.ok (.failure errorMessage (some e)), st1.finalizeOwnLogger id)

/-- The `finally` block of `run`: resume the parent's logger when this
op suspended it (while this op is still on the stack), then pop. -/
def runFinally (id : Nat) (st : OpState) : OpState :=
  let st1 := st.handleParentLoggerResumption id
  { st1 with stack := st1.stack.tail }

/-- `BaseOp.run` (part_007): push onto the `OpStack`, run the `try`
body, convert an escaping exception through the `catch`, and always run
the `finally` cleanup. -/
def run {T : Type} (dataRepr : T → String) (id : Nat) (sup : OpState → Bool)
    (perform : OpState → PerformResult T × OpState) (st0 : OpState) :
    Except Thrown (Outcome T) × OpState :=
  let st1 := { st0 with stack := id :: st0.stack }
  match runTry dataRepr id sup perform st1 with
  | (.ok result, st2) => (.ok result, runFinally id st2)
  | (.error e, st2) =>
    match runCatch T id sup e st2 with
    | (.ok res, st3) => (.ok res, runFinally id st3)
    | (.error e2, st3) => (.error e2, runFinally id st3)

end BaseOp

/-- The logger the op `id` would obtain from its getter is not finalized
— the sanity condition under which every internal logging call of `run`
returns normally. -/
def loggerUsable (id : Nat) (sup : OpState → Bool) (st : OpState) : Prop :=
  ((st.getLoggerFor id sup).2.loggers (st.getLoggerFor id sup).1).finalized = false

/-- A minimal concrete runtime state (one op, id 7, already running) for
exercising `run` at concrete inputs. -/
def initOpState : OpState :=
  { stack := [7]
    ops := fun _ => OpRec.fresh "Main"
    loggers := fun _ => Logger.new "unused" 0
    nextLoggerId := 0
    registry := []
    enabled := defaultEnabledLevels
    clock := 0
    fs := { counters := fun _ => 0, artifacts := [] } }

/-! ## Chain executor (`src/runtime/OpStack.ts`, `OperationRunner.executeChain`)

The duck-typed `isOperation` check inspects arbitrary JS values, so the
chain model carries a small JS value universe: an "operation" is any
object whose `execute` member is a function and whose `name` member is a
string.  A function member's behavior is what its call produces: an
`OperationResult` whose `data` is again a JS value, or a thrown error. -/

mutual

inductive ChainValue where
  | vNull
  | vUndefined
  | vBool (b : Bool)
  | vNum (n : Int)
  | vStr (s : String)
  | vObj (o : ChainObject)

inductive ChainObject where
  | mk (execMember : Option ChainMember) (nameMember : Option ChainValue)

inductive ChainMember where
  | funcMember (body : ExecBehavior)
  | valueMember (v : ChainValue)

inductive ExecBehavior where
  | returns (result : ChainOutcome)
  | throws (e : String)

inductive ChainOutcome where
  | success (data : ChainValue)
  | failure (error : String) (details : Option ChainValue)

end

/-- `isOperation` (`operations/base/isOperation.ts`): a non-null,
non-undefined object with a function-valued `execute` member and a
string-valued `name` member. -/
def isOperation : ChainValue → Bool
  | .vObj (.mk (some (.funcMember _)) (some (.vStr _))) => true
  | _ => false

/-- JS truthiness of the modelled values (all objects are truthy). -/
def truthy : ChainValue → Bool
  | .vNull => false
  | .vUndefined => false
  | .vBool b => b
  | .vNum n => n != 0
  | .vStr s => s != ""
  | .vObj _ => true

/-- The operation's `name`, as read off the `name` member. -/
def execName : Option ChainValue → String
  | some (.vStr s) => s
  | _ => ""

/-- `OperationRunner.executeChain`: call `execute()`; when the result is
successful and `result.data` is truthy and passes `isOperation`, recurse
on it; otherwise stop.  The value returned is the trace of the names of
the operations whose `execute` was invoked, in invocation order, paired
with the error that escaped (rethrown by the catastrophic-failure
handler, whose `Logger.error`/`console.error` output is an external
effect) or `none`.  Calling a missing or non-function `execute` throws a
`TypeError` before any operation runs.  The non-object `data` arm of the
inner match mirrors that `truthy && isOperation` is false for every
non-object value. -/
def executeChain : ChainObject → List String × Option String
  | .mk none _ => ([], some "TypeError: operation.execute is not a function")
  | .mk (some (.valueMember _)) _ =>
    ([], some "TypeError: operation.execute is not a function")
  | .mk (some (.funcMember (.throws e))) nm => ([execName nm], some e)
  | .mk (some (.funcMember (.returns (.failure _ _)))) nm => ([execName nm], none)
  | .mk (some (.funcMember (.returns (.success d)))) nm =>
    match d with
    | .vObj next =>
      if truthy (.vObj next) && isOperation (.vObj next) then
        let p := executeChain next
        (execName nm :: p.1, p.2)
      else ([execName nm], none)
    | _ => ([execName nm], none)

/-- The scenario chain: operation B returns the terminal non-operation
value `"done"`. -/
def chainOpB : ChainObject :=
  .mk (some (.funcMember (.returns (.success (.vStr "done"))))) (some (.vStr "B"))

/-- The scenario chain: operation A's successful data is operation B. -/
def chainOpA : ChainObject :=
  .mk (some (.funcMember (.returns (.success (.vObj chainOpB))))) (some (.vStr "A"))

/-! ## Queue lemmas -/

theorem consumeAllFuel_eq (n : Nat) : ∀ (q : UserInputQueue), q.queue.length ≤ n →
    consumeAllFuel n q = q.queue := by
  induction n with
  | zero =>
    intro q hq
    have h : q.queue = [] := List.length_eq_zero.mp (Nat.le_zero.mp hq)
    simp [consumeAllFuel, h]
  | succ n ih =>
    intro q hq
    match h : q.queue with
    | [] => simp [consumeAllFuel, h]
    | e :: rest =>
      have hget : UserInputQueue.getNext e.type q =
          (.ok (some e),
            { q with
              queue := rest
              used := q.used ++ [e]
              interactionCount := q.interactionCount + 1 }) := by
        simp [UserInputQueue.getNext, h]
      have hlen : rest.length ≤ n := by
        have h2 := hq
        rw [h] at h2
        simpa using h2
      simp only [consumeAllFuel, h, hget]
      rw [ih _ (by simpa using hlen)]

theorem consumeAll_eq (q : UserInputQueue) : consumeAll q = q.queue :=
  consumeAllFuel_eq _ q le_rfl

theorem parseScriptLoop_error : ∀ (parts : List String) (acc : List SimulatedUserInput)
    (p : String) (e : String), p ∈ parts → parseScriptPart p = .error e →
    ∃ e2, parseScriptLoop parts acc = .error e2 := by
  intro parts
  induction parts with
  | nil => intro acc p e hp; cases hp
  | cons hd rest ih =>
    intro acc p e hp herr
    rcases List.mem_cons.mp hp with rfl | hmem
    · exact ⟨e, by simp [parseScriptLoop, herr]⟩
    · match hhd : parseScriptPart hd with
      | .error e3 => exact ⟨e3, by simp [parseScriptLoop, hhd]⟩
      | .ok none =>
        obtain ⟨e2, h2⟩ := ih acc p e hmem herr
        exact ⟨e2, by simp [parseScriptLoop, hhd, h2]⟩
      | .ok (some a) =>
        obtain ⟨e2, h2⟩ := ih (acc ++ [a]) p e hmem herr
        exact ⟨e2, by simp [parseScriptLoop, hhd, h2]⟩

/-! ## Claim theorems: scripted-input queue -/

/-- C5: parsing a well-formed script and then consuming the queue yields
exactly the declared (kind, value) sequence in declared order, with
quoted text unescaped; in particular `select:1,input:"hello world"`
parses to the two entries `select 1` and `input "hello world"`. -/
theorem parse_then_consume_in_order :
    parseInputString "select:1,input:\"hello world\""
      = .ok [.select 1, .input "hello world"]
    ∧ ∀ (s : String) (es : List SimulatedUserInput), parseInputString s = .ok es →
        ∃ q0, UserInputQueue.ofScript s = .ok q0
          ∧ q0.originalQueue = es ∧ consumeAll q0 = es := by
  constructor
  · rfl
  · intro s es h
    refine ⟨⟨es, [], es, 0⟩, ?_, rfl, ?_⟩
    · simp [UserInputQueue.ofScript, h]
    · exact consumeAll_eq ⟨es, [], es, 0⟩

/-- Witness for C5 at the scenario script. -/
theorem parse_then_consume_in_order_witness :
    ∃ q0, UserInputQueue.ofScript "select:1,input:\"hello world\"" = .ok q0
      ∧ q0.originalQueue = [.select 1, .input "hello world"]
      ∧ consumeAll q0 = [.select 1, .input "hello world"] :=
  parse_then_consume_in_order.2 _ _ parse_then_consume_in_order.1

/-- C3 (amended): in the Ops-tree queue (part_005), `getNext` on a
non-empty queue whose head kind differs from the requested kind always
throws.  The legacy runtime queue's `getNext` never throws: it scans the
whole queue for the first entry of the requested kind (ignoring the
head's kind) and returns `undefined` when none exists. -/
theorem getNext_mismatch_throws_ops_vs_legacy :
    (∀ (q : UserInputQueue) (ty : UserInputType) (e : SimulatedUserInput)
        (rest : List SimulatedUserInput), q.queue = e :: rest → e.type ≠ ty →
        ∃ msg, (q.getNext ty).1 = .error msg)
    ∧ ∀ (q : RT.UserInputQueue) (ty : RT.UserInputType),
        (∀ i ∈ q.queue, i.type ≠ ty) → (q.getNext ty).1 = none := by
  constructor
  · intro q ty e rest h hne
    refine ⟨"Expected " ++ ty.name ++ " input, but got " ++ e.type.name, ?_⟩
    simp [UserInputQueue.getNext, h, hne]
  · intro q ty hall
    have hfind : q.queue.findIdx? (fun i => i.type == ty) = none := by
      rw [List.findIdx?_eq_none_iff]
      intro i hi
      simpa using hall i hi
    simp [RT.UserInputQueue.getNext, hfind]

/-- Witness for C3's amended statement: the Ops queue throws when `input`
is requested but `select 3` is at the head, and the legacy queue returns
`none` when no entry of the requested kind exists at all. -/
theorem getNext_mismatch_throws_ops_vs_legacy_witness :
    (∃ msg, ((⟨[.select 3], [], [.select 3], 0⟩ : UserInputQueue).getNext .input).1
      = .error msg)
    ∧ ((⟨[⟨.select, .num 3⟩], [⟨.select, .num 3⟩], 0⟩ : RT.UserInputQueue).getNext
        .input).1 = none :=
  ⟨getNext_mismatch_throws_ops_vs_legacy.1 _ _ _ _ rfl (by decide),
   getNext_mismatch_throws_ops_vs_legacy.2 _ _ (by decide)⟩

/-- C3 counterexample: in the legacy runtime queue, with head kind
`select` and requested kind `input`, `getNext` does not throw — it even
skips ahead and returns the later matching entry. -/
theorem legacy_getNext_mismatch_returns_without_throw :
    (RT.UserInputQueue.getNext .input
        ⟨[⟨.select, .num 1⟩, ⟨.input, .str "x"⟩],
         [⟨.select, .num 1⟩, ⟨.input, .str "x"⟩], 0⟩).1
      = some ⟨.input, .str "x"⟩ := by decide

/-- C6 (amended): in the Ops-tree queue, a script item with an
unrecognized kind or an out-of-enum confirmation value makes
construction throw immediately; the legacy runtime queue instead never
throws at construction: an unrecognized kind is silently skipped and a
malformed confirmation value is coerced to the boolean default `false`. -/
theorem malformed_script_fails_construction :
    (∀ (s : String) (p : String) (e : String), p ∈ splitRespectingQuotes s →
        parseScriptPart p = .error e → ∃ e2, UserInputQueue.ofScript s = .error e2)
    ∧ RT.UserInputQueue.ofScript "oops:1,confirm:maybe"
        = ⟨[⟨.confirm, .bool false⟩], [⟨.confirm, .bool false⟩], 0⟩ := by
  constructor
  · intro s p e hp herr
    obtain ⟨e2, h2⟩ := parseScriptLoop_error (splitRespectingQuotes s) [] p e hp herr
    exact ⟨e2, by simp [UserInputQueue.ofScript, parseInputString, h2]⟩
  · decide

/-- Witness for C6's amended statement at the scripts `oops:1` (bad
kind) and `confirm:maybe` (bad confirmation value). -/
theorem malformed_script_fails_construction_witness :
    (∃ e2, UserInputQueue.ofScript "oops:1" = .error e2)
    ∧ ∃ e2, UserInputQueue.ofScript "confirm:maybe" = .error e2 :=
  ⟨malformed_script_fails_construction.1 "oops:1" "oops:1"
      "UserInputQueue: Invalid input type: oops" (by decide) (by decide),
   malformed_script_fails_construction.1 "confirm:maybe" "confirm:maybe"
      "UserInputQueue: Invalid confirm value: maybe" (by decide) (by decide)⟩

/-- C6 counterexample: legacy construction on a script with a malformed
kind and a malformed confirmation value succeeds instead of throwing —
the bad kind is skipped and the bad confirmation value is coerced. -/
theorem legacy_malformed_construction_succeeds :
    parseScriptPart "oops:1" = .error "UserInputQueue: Invalid input type: oops"
    ∧ parseScriptPart "confirm:maybe"
        = .error "UserInputQueue: Invalid confirm value: maybe"
    ∧ RT.parseInputString "oops:1,confirm:maybe" = [⟨.confirm, .bool false⟩] := by
  refine ⟨by decide, by decide, by decide⟩

/-- C10: when the head's kind differs from the requested kind, `getNext`
(part_005) still removes the head, appends it to `used` and counts the
interaction before throwing — the error is not atomic with respect to
the queue state, which is one entry shorter afterwards. -/
theorem getNext_mismatch_still_consumes :
    ∀ (q : UserInputQueue) (ty : UserInputType) (e : SimulatedUserInput)
      (rest : List SimulatedUserInput), q.queue = e :: rest → e.type ≠ ty →
      q.getNext ty = (.error ("Expected " ++ ty.name ++ " input, but got " ++ e.type.name),
        { q with
          queue := rest
          used := q.used ++ [e]
          interactionCount := q.interactionCount + 1 }) := by
  intro q ty e rest h hne
  simp [UserInputQueue.getNext, h, hne]

/-! ## Logger lemmas -/

theorem finalize_of_finalized (lg : LoggerState) (fs : FileSys)
    (h : lg.finalized = true) : lg.finalize fs = (lg, fs) := by
  simp [LoggerState.finalize, h]

theorem finalize_fst_finalized (lg : LoggerState) (fs : FileSys)
    (hsub : lg.isSubLogger = true) : (lg.finalize fs).1.finalized = true := by
  by_cases hfin : lg.finalized
  · rw [finalize_of_finalized lg fs hfin]
    exact hfin
  · simp only [LoggerState.finalize, hsub, hfin]
    simp
    split <;> simp

theorem finalize_fst_isSubLogger (lg : LoggerState) (fs : FileSys) :
    (lg.finalize fs).1.isSubLogger = lg.isSubLogger := by
  by_cases hfin : lg.finalized
  · rw [finalize_of_finalized lg fs hfin]
  · by_cases hsub : lg.isSubLogger
    · simp only [LoggerState.finalize, hsub, hfin]
      simp
      split <;> simp
    · simp [LoggerState.finalize, Bool.of_not_eq_true hsub]

/-! ## Claim theorems: logger lifecycle -/

/-- C4 (amended): logging to a finalized sub-logger throws for every
level that is currently enabled; a call at a disabled level is filtered
out before the finalized check and is silently ignored. -/
theorem log_after_finalize_throws_for_enabled_levels :
    ∀ (lg : LoggerState) (enabled : LogLevel → Bool) (now : Nat) (level : LogLevel)
      (message : String) (context : Option String) (err : Option Thrown),
      lg.isSubLogger = true → lg.finalized = true → enabled level = true →
      lg.log enabled now level message context err
        = .error (.errObj "Cannot log to finalized sub-logger") := by
  intro lg enabled now level message context err hsub hfin hen
  simp [LoggerState.log, hsub, hfin, hen]

/-- Witness for C4's amended statement: an ERROR-level call (enabled by
default) on a finalized sub-logger throws. -/
theorem log_after_finalize_throws_witness :
    ({ operationName := "Op", logs := [], startTime := 0, finalized := true,
       isSubLogger := true, partNumber := 1 } : LoggerState).log
        defaultEnabledLevels 1 .error "late entry" none none
      = .error (.errObj "Cannot log to finalized sub-logger") :=
  log_after_finalize_throws_for_enabled_levels _ defaultEnabledLevels 1 .error
    "late entry" none none rfl rfl rfl

/-- C4 counterexample: a DEBUG-level call on a finalized sub-logger under
the default enabled levels does not throw — the level filter runs before
the finalized check, so the call is silently ignored. -/
theorem log_after_finalize_silently_ignored_for_disabled_level :
    ({ operationName := "Op", logs := [], startTime := 0, finalized := true,
       isSubLogger := true, partNumber := 1 } : LoggerState).log
        defaultEnabledLevels 1 .debug "late entry" none none
      = .ok { operationName := "Op", logs := [], startTime := 0, finalized := true,
              isSubLogger := true, partNumber := 1 } := by decide

/-- C9: `finalize` marks the logger closed; an empty buffer produces no
artifact; a non-empty buffer produces exactly one artifact whose name is
generated from the first entry's timestamp and the operation's name; and
a second `finalize` is a no-op. -/
theorem finalize_idempotent_and_names_artifact :
    ∀ (lg : LoggerState) (fs : FileSys), lg.isSubLogger = true → lg.finalized = false →
      (lg.finalize fs).1.finalized = true
      ∧ (lg.logs = [] → lg.finalize fs = ({ lg with finalized := true }, fs))
      ∧ (∀ (e : LogEntry) (rest : List LogEntry), lg.logs = e :: rest →
          (lg.finalize fs).2.artifacts = fs.artifacts
            ++ [⟨(generateLogFilename fs e.timestamp e.level lg.operationName
                    (some lg.partNumber)).1,
                 if lg.partNumber > 1 then
                   "[CONTINUED FROM PART " ++ toString (lg.partNumber - 1) ++ "]\n\n"
                     ++ String.intercalate "\n" (lg.logs.map formatSubLoggerLine)
                 else String.intercalate "\n" (lg.logs.map formatSubLoggerLine)⟩])
      ∧ (lg.finalize fs).1.finalize (lg.finalize fs).2 = lg.finalize fs := by
  intro lg fs hsub hfin
  refine ⟨finalize_fst_finalized lg fs hsub, ?_, ?_, ?_⟩
  · intro hlogs
    simp [LoggerState.finalize, hsub, hfin, hlogs]
  · intro e rest hlogs
    simp [LoggerState.finalize, hsub, hfin, hlogs, generateLogFilename]
  · exact (finalize_of_finalized _ _ (finalize_fst_finalized lg fs hsub)).trans
      Prod.mk.eta

/-- Witness for C9 on a one-entry buffer. -/
theorem finalize_idempotent_witness :
    (({ operationName := "Op", logs := [⟨5, .info, "hello", none, none⟩],
        startTime := 0, finalized := false, isSubLogger := true, partNumber := 1 }
          : LoggerState).finalize ⟨fun _ => 0, []⟩).2.artifacts
      = [⟨(generateLogFilename ⟨fun _ => 0, []⟩ 5 .info "Op" (some 1)).1,
          String.intercalate "\n"
            ([(⟨5, .info, "hello", none, none⟩ : LogEntry)].map formatSubLoggerLine)⟩] := by
  have h := (finalize_idempotent_and_names_artifact
    { operationName := "Op", logs := [⟨5, .info, "hello", none, none⟩],
      startTime := 0, finalized := false, isSubLogger := true, partNumber := 1 }
    ⟨fun _ => 0, []⟩ rfl rfl).2.2.1 ⟨5, .info, "hello", none, none⟩ [] rfl
  exact h

/-- C7: on a sub-logger, `suspend` finalizes the current part and returns
metadata carrying the operation name and the current part number;
`resumeFrom` yields a logger with `partNumber` one higher, whose
eventual artifact opens with a continuation header naming the prior
part; `suspend` on a non-sub-logger throws. -/
theorem suspend_resume_continuation :
    (∀ (lg : LoggerState) (fs : FileSys) (now : Nat), lg.isSubLogger = true →
      lg.suspend fs = .ok (lg.finalize fs, ⟨lg.operationName, lg.partNumber⟩)
      ∧ (lg.finalize fs).1.finalized = true
      ∧ (Logger.resumeFrom ⟨lg.operationName, lg.partNumber⟩ now).partNumber
          = lg.partNumber + 1)
    ∧ (∀ (md : LoggerSuspensionMetadata) (now : Nat) (e : LogEntry)
        (more : List LogEntry) (fs2 : FileSys), 1 ≤ md.partNumber →
        ((({ Logger.resumeFrom md now with logs := e :: more }
            : LoggerState).finalize fs2).2).artifacts
          = fs2.artifacts
            ++ [⟨(generateLogFilename fs2 e.timestamp e.level md.operationName
                    (some (md.partNumber + 1))).1,
                 "[CONTINUED FROM PART " ++ toString md.partNumber ++ "]\n\n"
                   ++ String.intercalate "\n" ((e :: more).map formatSubLoggerLine)⟩])
    ∧ ∀ (lg : LoggerState) (fs : FileSys), lg.isSubLogger = false →
        lg.suspend fs = .error (.errObj "Cannot suspend a non-sub-logger") := by
  refine ⟨?_, ?_, ?_⟩
  · intro lg fs now hsub
    exact ⟨by simp [LoggerState.suspend, hsub], finalize_fst_finalized lg fs hsub,
      by simp [Logger.resumeFrom]⟩
  · intro md now e more fs2 hpart
    have hgt : md.partNumber + 1 > 1 := by omega
    simp [LoggerState.finalize, Logger.resumeFrom, Logger.new, generateLogFilename, hgt]
  · intro lg fs hnot
    simp [LoggerState.suspend, hnot]

/-- Witness for C7 at a fresh sub-logger and its resumption metadata. -/
theorem suspend_resume_continuation_witness :
    (Logger.new "Op" 0).suspend ⟨fun _ => 0, []⟩
      = .ok ((Logger.new "Op" 0).finalize ⟨fun _ => 0, []⟩, ⟨"Op", 1⟩)
    ∧ (Logger.resumeFrom ⟨"Op", 1⟩ 7).partNumber = 2
    ∧ ((({ Logger.resumeFrom ⟨"Op", 1⟩ 7 with
          logs := [⟨8, .info, "x", none, none⟩] } : LoggerState).finalize
            ⟨fun _ => 0, []⟩).2).artifacts
        = [⟨(generateLogFilename ⟨fun _ => 0, []⟩ 8 .info "Op" (some 2)).1,
            "[CONTINUED FROM PART 1]\n\n" ++ String.intercalate "\n"
              ([(⟨8, .info, "x", none, none⟩ : LogEntry)].map formatSubLoggerLine)⟩] := by
  refine ⟨(suspend_resume_continuation.1 (Logger.new "Op" 0) ⟨fun _ => 0, []⟩ 7 rfl).1,
    (suspend_resume_continuation.1 (Logger.new "Op" 0) ⟨fun _ => 0, []⟩ 7 rfl).2.2, ?_⟩
  have h := suspend_resume_continuation.2.1 ⟨"Op", 1⟩ 7 ⟨8, .info, "x", none, none⟩ []
    ⟨fun _ => 0, []⟩ (by decide)
  exact h

/-- Witness for C10: after a mismatching call on a two-entry queue the
queue holds only the tail and the head is recorded as used. -/
theorem getNext_mismatch_still_consumes_witness :
    (⟨[.select 3, .toggle true], [], [.select 3, .toggle true], 0⟩ :
        UserInputQueue).getNext .input
      = (.error "Expected input input, but got select",
         ⟨[.toggle true], [.select 3], [.select 3, .toggle true], 1⟩) := by
  have h := getNext_mismatch_still_consumes
    ⟨[.select 3, .toggle true], [], [.select 3, .toggle true], 0⟩ .input
    (.select 3) [.toggle true] rfl (by decide)
  exact h.trans (by decide)

/-! ## BaseOp lemmas -/

theorem updFun_same {α : Type} (f : Nat → α) (k : Nat) (v : α) :
    updFun f k v k = v := by simp [updFun]

theorem updFun_other {α : Type} (f : Nat → α) (k n : Nat) (v : α) (h : n ≠ k) :
    updFun f k v n = f n := by simp [updFun, h]

theorem newLogger_stack (st : OpState) (name : String) :
    ((st.newLogger name).2).stack = st.stack := rfl

theorem setOp_stack (st : OpState) (id : Nat) (r : OpRec) :
    (st.setOp id r).stack = st.stack := rfl

theorem getLoggerFor_stack (st : OpState) (id : Nat) (sup : OpState → Bool) :
    ((st.getLoggerFor id sup).2).stack = st.stack := by
  unfold OpState.getLoggerFor
  dsimp only [OpState.newLogger, OpState.setOp]
  repeat' split
  all_goals rfl

theorem logTo_stack (st : OpState) (lid : Nat) (level : LogLevel) (message : String)
    (err : Option Thrown) (ctx : Option String) :
    ((st.logTo lid level message err ctx).2).stack = st.stack := by
  unfold OpState.logTo
  dsimp only [OpState.setLogger]
  repeat' split
  all_goals rfl

theorem loggerCall_stack (st : OpState) (id : Nat) (sup : OpState → Bool)
    (level : LogLevel) (message : String) (err : Option Thrown) (ctx : Option String) :
    ((st.loggerCall id sup level message err ctx).2).stack = st.stack := by
  unfold OpState.loggerCall
  dsimp only
  rw [logTo_stack, getLoggerFor_stack]

theorem finalizeLogger_stack (st : OpState) (lid : Nat) :
    (st.finalizeLogger lid).stack = st.stack := rfl

theorem finalizeOwnLogger_stack (st : OpState) (id : Nat) :
    (st.finalizeOwnLogger id).stack = st.stack := by
  unfold OpState.finalizeOwnLogger
  dsimp only
  repeat' split
  all_goals rfl

theorem suspendLogger_stack (st : OpState) (lid : Nat) :
    ((st.suspendLogger lid).2).stack = st.stack := by
  unfold OpState.suspendLogger
  dsimp only
  repeat' split
  all_goals rfl

theorem handleParentLoggerSuspension_stack (st : OpState) (id : Nat)
    (sup : OpState → Bool) :
    ((st.handleParentLoggerSuspension id sup).2).stack = st.stack := by
  unfold OpState.handleParentLoggerSuspension
  dsimp only [OpState.setOp]
  repeat' split
  all_goals first
    | rfl
    | (rename_i heq
       have h1 := suspendLogger_stack st (by assumption)
       rw [heq] at h1
       exact h1)

theorem handleParentLoggerResumption_stack (st : OpState) (id : Nat) :
    (st.handleParentLoggerResumption id).stack = st.stack := by
  unfold OpState.handleParentLoggerResumption
  dsimp only [OpState.setOp]
  repeat' split
  all_goals first
    | rfl
    | rw [logTo_stack]

theorem runFinally_stack (id : Nat) (st : OpState) :
    (BaseOp.runFinally id st).stack = st.stack.tail := by
  unfold BaseOp.runFinally
  dsimp only
  rw [handleParentLoggerResumption_stack]

/-! ## Logging-call lemmas for `BaseOp.run` -/

theorem log_ok_of_unfinalized (lg : LoggerState) (enabled : LogLevel → Bool)
    (now : Nat) (level : LogLevel) (message : String) (ctx : Option String)
    (err : Option Thrown) (h : lg.finalized = false) :
    ∃ lg1, lg.log enabled now level message ctx err = .ok lg1
      ∧ lg1.finalized = false := by
  unfold LoggerState.log
  dsimp only
  split
  · exact ⟨lg, rfl, h⟩
  · split
    · have hne : ¬ lg.finalized = true := by simp [h]
      refine ⟨{ lg with logs := lg.logs ++ [⟨now, level, message, ctx, err⟩] }, ?_, ?_⟩
      · rw [if_neg hne]
      · exact h
    · exact ⟨lg, rfl, h⟩

theorem log_preserves_finalized {lg lg1 : LoggerState} {enabled : LogLevel → Bool}
    {now : Nat} {level : LogLevel} {message : String} {ctx : Option String}
    {err : Option Thrown}
    (h : lg.log enabled now level message ctx err = .ok lg1) :
    lg1.finalized = lg.finalized := by
  unfold LoggerState.log at h
  dsimp only at h
  split at h
  · cases h
    rfl
  · split at h
    · split at h
      · cases h
      · cases h
        rfl
    · cases h
      rfl

theorem logTo_fst_ok (st : OpState) (lid : Nat) (level : LogLevel) (message : String)
    (err : Option Thrown) (ctx : Option String)
    (h : (st.loggers lid).finalized = false) :
    (st.logTo lid level message err ctx).1 = .ok () := by
  unfold OpState.logTo
  dsimp only
  split
  · obtain ⟨lg1, hok, _⟩ := log_ok_of_unfinalized (st.loggers lid) st.enabled st.clock
      level message ctx err h
    rw [hok]
  · rfl

theorem logTo_ops (st : OpState) (lid : Nat) (level : LogLevel) (message : String)
    (err : Option Thrown) (ctx : Option String) :
    ((st.logTo lid level message err ctx).2).ops = st.ops := by
  unfold OpState.logTo
  dsimp only [OpState.setLogger]
  repeat' split
  all_goals rfl

theorem logTo_loggers_finalized (st : OpState) (lid : Nat) (level : LogLevel)
    (message : String) (err : Option Thrown) (ctx : Option String) (l2 : Nat) :
    (((st.logTo lid level message err ctx).2).loggers l2).finalized
      = (st.loggers l2).finalized := by
  unfold OpState.logTo
  dsimp only [OpState.setLogger]
  split
  · split
    · rfl
    · rename_i lg1 heq
      dsimp only
      by_cases hl : l2 = lid
      · subst hl
        rw [updFun_same]
        exact log_preserves_finalized heq
      · rw [updFun_other _ _ _ _ hl]
  · rfl

theorem parent_congr {st1 st2 : OpState} (h : st1.stack = st2.stack) :
    st1.parent = st2.parent := by
  unfold OpState.parent
  rw [h]

theorem loggerCall_fst_ok (st : OpState) (id : Nat) (sup : OpState → Bool)
    (level : LogLevel) (message : String) (err : Option Thrown) (ctx : Option String)
    (h : loggerUsable id sup st) :
    (st.loggerCall id sup level message err ctx).1 = .ok () := by
  unfold OpState.loggerCall
  unfold loggerUsable at h
  rcases hg : st.getLoggerFor id sup with ⟨lid, st1⟩
  rw [hg] at h
  dsimp only
  exact logTo_fst_ok st1 lid level message err ctx h

theorem setOp_ops_other (st : OpState) (id : Nat) (r : OpRec) (pid : Nat)
    (h : pid ≠ id) : (st.setOp id r).ops pid = st.ops pid := by
  simp [OpState.setOp, updFun, h]

theorem usable_of_own_logger (st2 : OpState) (id : Nat) (sup : OpState → Bool)
    (n : Nat) (hid : (st2.ops id).logger = some n)
    (hf : (st2.loggers n).finalized = false) :
    loggerUsable id sup st2 := by
  unfold loggerUsable OpState.getLoggerFor
  dsimp only
  rw [hid]
  exact hf

theorem usable_of_borrowed_logger (st2 : OpState) (id pid plid : Nat)
    (sup : OpState → Bool)
    (hid : (st2.ops id).logger = none)
    (hpar2 : st2.parent = some pid)
    (hsup2 : sup st2 = true)
    (hpidne : pid ≠ id)
    (hplog2 : (st2.ops pid).logger = some plid)
    (hf : (st2.loggers plid).finalized = false) :
    loggerUsable id sup st2 := by
  unfold loggerUsable OpState.getLoggerFor
  dsimp only
  rw [hid, hpar2]
  dsimp only
  rw [if_pos hsup2]
  rw [setOp_ops_other _ _ _ _ hpidne, hplog2]
  exact hf

theorem loggerCall_preserves_usable (st : OpState) (id : Nat) (sup : OpState → Bool)
    (level : LogLevel) (message : String) (err : Option Thrown) (ctx : Option String)
    (Hsup : ∀ s1 s2 : OpState, s1.stack = s2.stack → sup s1 = sup s2)
    (hne : st.parent ≠ some id)
    (h : loggerUsable id sup st) :
    loggerUsable id sup ((st.loggerCall id sup level message err ctx).2) := by
  unfold OpState.loggerCall
  unfold loggerUsable at h
  rcases hg : st.getLoggerFor id sup with ⟨lid, st1⟩
  rw [hg] at h
  dsimp only at h
  dsimp only
  have hops : ((st1.logTo lid level message err ctx).2).ops = st1.ops :=
    logTo_ops st1 lid level message err ctx
  have hstk : ((st1.logTo lid level message err ctx).2).stack = st1.stack :=
    logTo_stack st1 lid level message err ctx
  have hfin : ∀ l2, (((st1.logTo lid level message err ctx).2).loggers l2).finalized
      = (st1.loggers l2).finalized :=
    logTo_loggers_finalized st1 lid level message err ctx
  generalize hst2 : (st1.logTo lid level message err ctx).2 = st2 at hops hstk hfin ⊢
  unfold OpState.getLoggerFor at hg
  dsimp only [OpState.newLogger] at hg
  cases hlog : (st.ops id).logger with
  | some l0 =>
    rw [hlog] at hg
    dsimp only at hg
    injection hg with e1 e2
    subst e1
    subst e2
    refine usable_of_own_logger st2 id sup l0 ?_ ?_
    · rw [hops, hlog]
    · rw [hfin]
      exact h
  | none =>
    rw [hlog] at hg
    dsimp only at hg
    cases hpar : st.parent with
    | none =>
      rw [hpar] at hg
      dsimp only at hg
      injection hg with e1 e2
      subst e1
      subst e2
      refine usable_of_own_logger st2 id sup st.nextLoggerId ?_ ?_
      · rw [hops]
        simp [OpState.setOp, updFun]
      · rw [hfin]
        simp [OpState.setOp, updFun, Logger.new]
    | some pid =>
      rw [hpar] at hg
      dsimp only at hg
      have hpidne : pid ≠ id := by
        intro hh
        apply hne
        rw [hpar, hh]
      by_cases hsupT : sup st = true
      · rw [if_pos hsupT] at hg
        rw [setOp_ops_other st id _ pid hpidne] at hg
        cases hplog : (st.ops pid).logger with
        | none =>
          rw [hplog] at hg
          dsimp only at hg
          injection hg with e1 e2
          subst e1
          subst e2
          refine usable_of_own_logger st2 id sup st.nextLoggerId ?_ ?_
          · rw [hops]
            simp [OpState.setOp, updFun]
          · rw [hfin]
            simp [OpState.setOp, updFun, Logger.new]
        | some plid =>
          rw [hplog] at hg
          dsimp only at hg
          injection hg with e1 e2
          subst e1
          subst e2
          have hstk2 : st2.stack = st.stack := by
            rw [hstk]
            rfl
          refine usable_of_borrowed_logger st2 id pid plid sup ?_ ?_ ?_ hpidne ?_ ?_
          · rw [hops]
            simp [OpState.setOp, updFun, hlog]
          · rw [parent_congr hstk2]
            exact hpar
          · rw [Hsup st2 st hstk2]
            exact hsupT
          · rw [hops]
            rw [setOp_ops_other st id _ pid hpidne]
            exact hplog
          · rw [hfin]
            exact h
      · rw [if_neg hsupT] at hg
        injection hg with e1 e2
        subst e1
        subst e2
        refine usable_of_own_logger st2 id sup st.nextLoggerId ?_ ?_
        · rw [hops]
          simp [OpState.setOp, updFun]
        · rw [hfin]
          simp [OpState.setOp, updFun, Logger.new]

theorem snd_stack_of_eq {α : Type} {p : α × OpState} {x : α} {st1 : OpState}
    (h : p = (x, st1)) : st1.stack = p.2.stack := by rw [h]

theorem logOutcome_fst_ok {T : Type} (dataRepr : T → String) (id : Nat)
    (sup : OpState → Bool) (result : Outcome T) (st : OpState)
    (Hsup : ∀ s1 s2 : OpState, s1.stack = s2.stack → sup s1 = sup s2)
    (hne : st.parent ≠ some id)
    (h : loggerUsable id sup st) :
    (BaseOp.logOutcome dataRepr id sup result st).1 = .ok () := by
  unfold BaseOp.logOutcome
  dsimp only
  cases result with
  | success d =>
    dsimp only
    split
    · rename_i e st1 heq
      have h1 := loggerCall_fst_ok st id sup .debug
        ("Op " ++ toString id ++ ": " ++ (st.ops id).name ++ " completed successfully")
        none none h
      rw [heq] at h1
      cases h1
    · rename_i u st1 heq
      have h2 := loggerCall_preserves_usable st id sup .debug
        ("Op " ++ toString id ++ ": " ++ (st.ops id).name ++ " completed successfully")
        none none Hsup hne h
      rw [heq] at h2
      exact loggerCall_fst_ok st1 id sup .debug _ none none h2
  | failure errmsg details =>
    dsimp only
    split
    · rename_i e st1 heq
      have h1 := loggerCall_fst_ok st id sup .error
        ("Op " ++ toString id ++ ": " ++ (st.ops id).name ++ " failed")
        none (some ("error: " ++ errmsg)) h
      rw [heq] at h1
      cases h1
    · rename_i u st1 heq
      have h2 := loggerCall_preserves_usable st id sup .error
        ("Op " ++ toString id ++ ": " ++ (st.ops id).name ++ " failed")
        none (some ("error: " ++ errmsg)) Hsup hne h
      rw [heq] at h2
      exact loggerCall_fst_ok st1 id sup .debug _ none none h2

theorem runTryPrelude_stack (id : Nat) (sup : OpState → Bool) (st : OpState) :
    ((BaseOp.runTryPrelude id sup st).2).stack = st.stack := by
  unfold BaseOp.runTryPrelude
  split
  · rename_i e st1 heq
    exact (snd_stack_of_eq heq).trans (handleParentLoggerSuspension_stack st id sup)
  · rename_i u st1 heq
    rw [loggerCall_stack]
    exact (snd_stack_of_eq heq).trans (handleParentLoggerSuspension_stack st id sup)

theorem logOutcome_stack {T : Type} (dataRepr : T → String) (id : Nat)
    (sup : OpState → Bool) (result : Outcome T) (st : OpState) :
    ((BaseOp.logOutcome dataRepr id sup result st).2).stack = st.stack := by
  unfold BaseOp.logOutcome
  dsimp only
  cases result with
  | success d =>
    dsimp only
    split
    · rename_i e st1 heq
      exact (snd_stack_of_eq heq).trans (loggerCall_stack _ _ _ _ _ _ _)
    · rename_i u st1 heq
      rw [loggerCall_stack]
      exact (snd_stack_of_eq heq).trans (loggerCall_stack _ _ _ _ _ _ _)
  | failure errmsg details =>
    dsimp only
    split
    · rename_i e st1 heq
      exact (snd_stack_of_eq heq).trans (loggerCall_stack _ _ _ _ _ _ _)
    · rename_i u st1 heq
      rw [loggerCall_stack]
      exact (snd_stack_of_eq heq).trans (loggerCall_stack _ _ _ _ _ _ _)

theorem runTry_stack {T : Type} (dataRepr : T → String) (id : Nat)
    (sup : OpState → Bool) (perform : OpState → PerformResult T × OpState)
    (st : OpState) (hperf : ∀ s, ((perform s).2).stack = s.stack) :
    ((BaseOp.runTry dataRepr id sup perform st).2).stack = st.stack := by
  unfold BaseOp.runTry
  split
  · rename_i e st1 heq
    exact (snd_stack_of_eq heq).trans (runTryPrelude_stack id sup st)
  · rename_i u st1 heq
    have h1 : st1.stack = st.stack :=
      (snd_stack_of_eq heq).trans (runTryPrelude_stack id sup st)
    split
    · rename_i e st2 heq2
      exact ((snd_stack_of_eq heq2).trans (hperf st1)).trans h1
    · rename_i r st2 heq2
      have h2 : st2.stack = st.stack :=
        ((snd_stack_of_eq heq2).trans (hperf st1)).trans h1
      split
      · rename_i e st3 heq3
        exact ((snd_stack_of_eq heq3).trans (logOutcome_stack dataRepr id sup r st2)).trans h2
      · rename_i u2 st3 heq3
        rw [finalizeOwnLogger_stack]
        exact ((snd_stack_of_eq heq3).trans (logOutcome_stack dataRepr id sup r st2)).trans h2

theorem runCatch_stack (T : Type) (id : Nat) (sup : OpState → Bool) (e : Thrown)
    (st : OpState) :
    ((BaseOp.runCatch T id sup e st).2).stack = st.stack := by
  unfold BaseOp.runCatch
  dsimp only
  split
  · rename_i e2 st1 heq
    exact (snd_stack_of_eq heq).trans (loggerCall_stack _ _ _ _ _ _ _)
  · rename_i u st1 heq
    rw [finalizeOwnLogger_stack]
    exact (snd_stack_of_eq heq).trans (loggerCall_stack _ _ _ _ _ _ _)

theorem run_snd_stack {T : Type} (dataRepr : T → String) (id : Nat)
    (sup : OpState → Bool) (perform : OpState → PerformResult T × OpState)
    (st0 : OpState) (hperf : ∀ s, ((perform s).2).stack = s.stack) :
    ((BaseOp.run dataRepr id sup perform st0).2).stack = st0.stack := by
  unfold BaseOp.run
  dsimp only
  split
  · rename_i r st2 heq
    rw [runFinally_stack]
    have h2 : st2.stack = id :: st0.stack :=
      (snd_stack_of_eq heq).trans (runTry_stack dataRepr id sup perform _ hperf)
    rw [h2]
    rfl
  · rename_i e st2 heq
    have h2 : st2.stack = id :: st0.stack :=
      (snd_stack_of_eq heq).trans (runTry_stack dataRepr id sup perform _ hperf)
    split
    · rename_i res st3 heq3
      rw [runFinally_stack]
      have h3 : st3.stack = id :: st0.stack :=
        ((snd_stack_of_eq heq3).trans (runCatch_stack T id sup e st2)).trans h2
      rw [h3]
      rfl
    · rename_i e2 st3 heq3
      rw [runFinally_stack]
      have h3 : st3.stack = id :: st0.stack :=
        ((snd_stack_of_eq heq3).trans (runCatch_stack T id sup e st2)).trans h2
      rw [h3]
      rfl

/-- C1 (amended): for every action implementation that leaves the op's
logging machinery usable — the starting entry could be written, the
action left the logger its op would obtain unfinalized, and did not push
the op on top of itself — `run` resolves to an `Outcome` rather than
letting an exception escape, and an exception escaping the action
becomes a failure `Outcome` whose error is the exception's message and
whose details is the raw error.  The usability hypotheses are necessary:
an action that finalizes the op's own logger and then throws makes the
`catch` block's own `this.logger.error` call throw past `run`'s
boundary, as the counterexample shows. -/
theorem run_never_throws_and_converts {T : Type} (dataRepr : T → String) (id : Nat)
    (sup : OpState → Bool) (perform : OpState → PerformResult T × OpState)
    (st0 : OpState)
    (Hsup : ∀ s1 s2 : OpState, s1.stack = s2.stack → sup s1 = sup s2)
    (hpre : (BaseOp.runTryPrelude id sup { st0 with stack := id :: st0.stack }).1
      = .ok ())
    (hne : ((perform ((BaseOp.runTryPrelude id sup
        { st0 with stack := id :: st0.stack }).2)).2).parent ≠ some id)
    (husable : loggerUsable id sup ((perform ((BaseOp.runTryPrelude id sup
        { st0 with stack := id :: st0.stack }).2)).2)) :
    ∃ st3, BaseOp.run dataRepr id sup perform st0
      = (.ok (match (perform ((BaseOp.runTryPrelude id sup
            { st0 with stack := id :: st0.stack }).2)).1 with
          | .throws e => Outcome.failure (jsErrorMessage e) (some e)
          | .returns r => r), st3) := by
  unfold BaseOp.run BaseOp.runTry
  dsimp only
  rcases hp : BaseOp.runTryPrelude id sup { st0 with stack := id :: st0.stack }
    with ⟨u1, stPre⟩
  rw [hp] at hpre hne husable
  have hu1 : u1 = .ok () := hpre
  subst hu1
  dsimp only
  dsimp only at hne husable
  rcases hq : perform stPre with ⟨pres, stMid⟩
  rw [hq] at hne husable
  have hne2 : stMid.parent ≠ some id := hne
  have husable2 : loggerUsable id sup stMid := husable
  cases pres with
  | throws e =>
    dsimp only
    unfold BaseOp.runCatch
    dsimp only
    rcases hc : stMid.loggerCall id sup .error "Unexpected error in Op"
        (jsToErrorObj e) none with ⟨u2, stC⟩
    have hu2 : u2 = .ok () := by
      have h1 := loggerCall_fst_ok stMid id sup .error "Unexpected error in Op"
        (jsToErrorObj e) none husable2
      rw [hc] at h1
      exact h1
    subst hu2
    dsimp only
    exact ⟨_, rfl⟩
  | returns r =>
    dsimp only
    rcases hlo : BaseOp.logOutcome dataRepr id sup r stMid with ⟨u2, stL⟩
    have hu2 : u2 = .ok () := by
      have h1 := logOutcome_fst_ok dataRepr id sup r stMid Hsup hne2 husable2
      rw [hlo] at h1
      exact h1
    subst hu2
    dsimp only
    exact ⟨_, rfl⟩

/-- Witness for C1: an action that throws `Error("boom")` makes `run`
resolve to `{success:false, error:"boom", details: the raw error}`. -/
theorem run_never_throws_and_converts_witness :
    ∃ st3, BaseOp.run (fun _ : Unit => "") 1 (fun _ => false)
        (fun s => (.throws (.errObj "boom"), s)) initOpState
      = (.ok (.failure "boom" (some (.errObj "boom"))), st3) := by
  obtain ⟨st3, h⟩ := run_never_throws_and_converts (fun _ : Unit => "") 1
    (fun _ => false) (fun s => (.throws (.errObj "boom"), s)) initOpState
    (fun _ _ _ => rfl) rfl (by decide) (by unfold loggerUsable; rfl)
  exact ⟨st3, h⟩

/-- C1 counterexample: the claim quantifies over every action
implementation, but an action that finalizes the op's own logger (the
protected `finalizeOwnLogger`, provided for ops that call `Deno.exit`)
and then throws reaches `run`'s `catch`, where `this.logger.error` hits
the finalized sub-logger check (`ERROR` is in the default enabled
levels) and throws — the exception escapes `run`'s boundary instead of
resolving to a failure `Outcome`. -/
theorem run_exception_escapes_after_own_finalize :
    (BaseOp.run (fun _ : Unit => "") 1 (fun _ => false)
        (fun s => (.throws (.errObj "boom"), s.finalizeOwnLogger 1)) initOpState).1
      = .error (.errObj "Cannot log to finalized sub-logger") := by rfl

/-- C8: `run` pushes the op at invocation start and pops it in the
`finally` cleanup on every exit route, so — provided the action is
stack-preserving, as every well-nested child `run` is — the stack after
the call equals the stack before it; moreover the state the action runs
in has this op on top of the caller's stack, so while a child executes
its parent is the second-from-top entry returned by the `parent`
getter. -/
theorem run_pushes_and_pops {T : Type} (dataRepr : T → String) (id : Nat)
    (sup : OpState → Bool) (perform : OpState → PerformResult T × OpState)
    (st0 : OpState) (hperf : ∀ s, ((perform s).2).stack = s.stack) :
    ((BaseOp.run dataRepr id sup perform st0).2).stack = st0.stack
    ∧ ((BaseOp.runTryPrelude id sup { st0 with stack := id :: st0.stack }).2).stack
        = id :: st0.stack
    ∧ ∀ (pid : Nat) (rest : List Nat), st0.stack = pid :: rest →
        ((BaseOp.runTryPrelude id sup { st0 with stack := id :: st0.stack }).2).parent
          = some pid := by
  refine ⟨run_snd_stack dataRepr id sup perform st0 hperf,
    runTryPrelude_stack id sup _, ?_⟩
  intro pid rest h
  have hs := runTryPrelude_stack id sup { st0 with stack := id :: st0.stack }
  unfold OpState.parent
  rw [hs]
  dsimp only
  rw [h]

/-- C2: `executeChain` invokes the chain head, then recurses on the
successful result's data exactly when that data structurally satisfies
the operation contract (a non-null object with a function-valued
execute member and a string name), and otherwise stops; in the A → B →
terminal-C scenario, A and B are each invoked exactly once and the
chain stops after B. -/
theorem executeChain_recurses_exactly_on_operations :
    (executeChain chainOpA = (["A", "B"], none)
      ∧ (executeChain chainOpA).1.count "A" = 1
      ∧ (executeChain chainOpA).1.count "B" = 1)
    ∧ (∀ (next : ChainObject) (nm : Option ChainValue),
        isOperation (.vObj next) = true →
        executeChain (.mk (some (.funcMember (.returns (.success (.vObj next))))) nm)
          = (execName nm :: (executeChain next).1, (executeChain next).2))
    ∧ (∀ (d : ChainValue) (nm : Option ChainValue), isOperation d = false →
        executeChain (.mk (some (.funcMember (.returns (.success d)))) nm)
          = ([execName nm], none))
    ∧ (∀ (e : String) (nm : Option ChainValue),
        executeChain (.mk (some (.funcMember (.throws e))) nm)
          = ([execName nm], some e))
    ∧ ∀ (err : String) (det : Option ChainValue) (nm : Option ChainValue),
        executeChain (.mk (some (.funcMember (.returns (.failure err det)))) nm)
          = ([execName nm], none) := by
  refine ⟨⟨rfl, rfl, rfl⟩, ?_, ?_, ?_, ?_⟩
  · intro next nm h
    simp [executeChain, truthy, h]
  · intro d nm h
    cases d <;> simp [executeChain, truthy, h]
  · intro e nm
    rfl
  · intro err det nm
    rfl

/-- Witness for C2 at the scenario's head: A's successful data is the
operation B, so the chain recurses on B. -/
theorem executeChain_recurses_witness :
    executeChain (.mk (some (.funcMember (.returns (.success (.vObj chainOpB)))))
        (some (.vStr "A")))
      = ("A" :: (executeChain chainOpB).1, (executeChain chainOpB).2) :=
  executeChain_recurses_exactly_on_operations.2.1 chainOpB (some (.vStr "A")) rfl

/-- Witness for C8 at a concrete one-deep stack: after `run` the stack
again holds only the caller, and during the call the caller is the
parent. -/
theorem run_pushes_and_pops_witness :
    ((BaseOp.run (fun _ : Unit => "") 1 (fun _ => false)
        (fun s => (.returns (.success ()), s)) initOpState).2).stack = [7]
    ∧ ((BaseOp.runTryPrelude 1 (fun _ => false)
        { initOpState with stack := 1 :: initOpState.stack }).2).parent = some 7 := by
  have h := run_pushes_and_pops (fun _ : Unit => "") 1 (fun _ => false)
    (fun s => (.returns (.success ()), s)) initOpState (fun _ => rfl)
  exact ⟨h.1, h.2.2 7 [] rfl⟩

end Deval
